import Mathlib

/-!
Shallow embedding of `lib/spack/spack/util/module_cmd.py` (ValeevGroup/spack).

The file embeds the three functions the specification describes:

* `module`  — dispatch between the mutating invocation path (run a shell
  pipeline, take the last line of the stripped combined output, parse it as a
  JSON string-to-string mapping, replace `os.environ` wholesale) and the
  read-only path (return the full combined captured output).
* `get_argument_from_module_line` — quote-aware extraction of the argument of
  a Lua- or TCL-dialect module description line.
* `get_path_from_module` — the five prioritized heuristics that locate a
  module's installation path in its description text.

Subprocess execution and JSON decoding are external effects: the captured
output of the pipeline, the process return code and the JSON decoder
(`json.loads`, restricted to flat string-to-string objects as produced by
`json.dumps(dict(os.environ))`) are parameters of the embedding, and the
process environment (`os.environ`) is threaded explicitly as a value.
Python string primitives (`str.find`, slicing with a possibly negative stop
index, `str.split` with and without a separator, `str.strip`, `str.upper`,
`str.index`, negative list indexing) are reproduced with the exact Python
semantics over `List Char`.
-/

/-- Newline character, written numerically (`'\n'`). -/
def nl : Char := Char.ofNat 10

/-- Opening parenthesis character. -/
def opar : Char := Char.ofNat 40

/-- Closing parenthesis character. -/
def cpar : Char := Char.ofNat 41

/-- Comma character. -/
def comma : Char := Char.ofNat 44

/-- Double-quote character. -/
def dquote : Char := Char.ofNat 34

/-- Single-quote character. -/
def squote : Char := Char.ofNat 39

/-- Space character, Python's default for an out-of-range `getD` that never
fires in the embedded code paths. -/
def spaceChar : Char := Char.ofNat 32

/-- Python's whitespace class for `str.strip()` and `str.split()` (space, tab,
newline, carriage return, vertical tab, form feed). -/
def isPyWhitespace (c : Char) : Bool :=
  c == Char.ofNat 32 || c == Char.ofNat 9 || c == Char.ofNat 10 ||
  c == Char.ofNat 13 || c == Char.ofNat 11 || c == Char.ofNat 12

/-- Split a character list at every character satisfying `p`, keeping empty
segments, exactly like Python's `str.split(sep)` for a one-character `sep`
(with `p := (· == sep)`).  Always returns at least one segment. -/
def splitP (p : Char → Bool) : List Char → List (List Char)
  | [] => [[]]
  | c :: t =>
    if p c then [] :: splitP p t
    else
      match splitP p t with
      | [] => [[c]]
      | h :: r => (c :: h) :: r

/-- First index `≥ i` at which `sub` occurs in `l`, scanning left to right:
the core of Python's `str.find`. -/
def findSubFrom (sub : List Char) : List Char → Nat → Option Nat
  | [], i => if sub.isPrefixOf ([] : List Char) then some i else none
  | c :: t, i => if sub.isPrefixOf (c :: t) then some i else findSubFrom sub t (i + 1)

/-- Python `l.find(sub)`: index of the first occurrence of `sub`, `-1` when
absent. -/
def pyFind (l sub : List Char) : Int :=
  match findSubFrom sub l 0 with
  | some i => (i : Int)
  | none => -1

/-- Python `s.find(sub)` on strings. -/
def pyFindS (s sub : String) : Int := pyFind s.data sub.data

/-- Python's `s.find(sub) >= 0` test, i.e. substring containment. -/
def containsSub (s sub : String) : Bool := decide (0 ≤ pyFindS s sub)

/-- Python slice `l[a:b]` with a non-negative start `a` and a stop `b` that may
be negative (counting from the end, clamped at zero), exactly Python's slicing
rules for the index forms the source uses. -/
def pySlice (l : List Char) (a : Nat) (b : Int) : List Char :=
  (l.take (if b < 0 then l.length - (-b).toNat else b.toNat)).drop a

/-- Python `s.strip()`: remove leading and trailing whitespace. -/
def pyStrip (s : String) : String :=
  String.mk (((s.data.dropWhile isPyWhitespace).reverse.dropWhile isPyWhitespace).reverse)

/-- Python `s.upper()` restricted to ASCII case conversion (module names are
ASCII; the spec prescribes simple ASCII case conversion). -/
def pyUpper (s : String) : String := String.mk (s.data.map Char.toUpper)

/-- Python `s.split()` (no separator): split on whitespace runs, discarding
empty segments. -/
def pySplitWS (s : String) : List String :=
  ((splitP isPyWhitespace s.data).filter (fun w => w ≠ [])).map String.mk

/-- Python `text.split('\n')`: the lines of the description text, empty
segments kept. -/
def moduleLines (text : String) : List String :=
  (splitP (fun c => c == nl) text.data).map String.mk

/-- `env_output.strip().split('\n')[-1]`: the last line of the
whitespace-trimmed captured output (`split('\n')` never yields an empty list,
so the `[-1]` index is total). -/
def lastLine (s : String) : String :=
  String.mk ((splitP (fun c => c == nl) (pyStrip s).data).getLastD [])

/-- A process environment, as decoded from
`json.dumps(dict(os.environ))`: a string-to-string mapping. -/
abbrev EnvMap := List (String × String)

/-- Failures of the `module` operation: the JSON decode of the mutating
pipeline's last output line failing (`json.loads` raising `ValueError`), or
`args[0]` on an empty argument tuple (`IndexError`). -/
inductive ModuleError where
  | malformedSnapshot
  | emptyArgs
deriving DecidableEq

/-- The value `module(*args)` returns: Python `None` on the mutating path,
the decoded captured text on the read-only path. -/
inductive ModuleResult where
  | pyNone
  | output (s : String)
deriving DecidableEq

/-- `module_change_commands = ['load', 'swap', 'unload', 'purge', 'use', 'unuse']`. -/
def module_change_commands : List String :=
  ["load", "swap", "unload", "purge", "use", "unuse"]

/-- `module(*args)`.  External effects are parameters: `jsonLoads` stands for
`json.loads` restricted to flat string-to-string objects (`none` models a
raised `ValueError`), `captured` is the decoded combined stdout+stderr of the
spawned pipeline (`module_p.communicate()[0]`), `returncode` its exit status
(never read by the source), and `environ` the caller's `os.environ` before the
call.  The result pairs the returned value (or raised error) with the
`os.environ` contents after the call: on the mutating path a successful JSON
decode is followed by `os.environ.clear(); os.environ.update(env_dict)` and
the function falls off the end returning `None`; on the read-only path the
full captured text is returned and the environment is untouched. -/
def module (jsonLoads : String → Option EnvMap) (args : List String) (captured : String)
    (returncode : Int) (environ : EnvMap) : Except ModuleError ModuleResult × EnvMap :=
  match args with
  | [] => (.error .emptyArgs, environ)
  | a0 :: _ =>
    if a0 ∈ module_change_commands then
      match jsonLoads (lastLine captured) with
      | some env_dict => (.ok .pyNone, env_dict)
      | none => (.error .malformedSnapshot, environ)
    else
      (.ok (.output captured), environ)

/-- Failures of the line parsers: `line.index(',')` raising `ValueError`
when no comma exists, the re-raised `ValueError` "No lua quote symbol found in
lmod module line.", and `IndexError` from `line.split()[2]` (or, vacuously,
from the `[-2]` index). -/
inductive ExtractError where
  | noCommaSymbol
  | noQuoteSymbol
  | idxError
deriving DecidableEq

/-- `get_argument_from_module_line(line)`: if the line has both parentheses
(Lua dialect), find the first comma, determine which quote character appears
first from the comma onward (minimum of the `find` results of the quote
characters present), split the whole line on that quote and take the
second-to-last segment; otherwise (TCL dialect) take the third
whitespace-separated word. -/
def get_argument_from_module_line (line : String) : Except ExtractError String :=
  if line.data.contains opar && line.data.contains cpar then
    match line.data.findIdx? (fun c => c == comma) with
    | none => .error .noCommaSymbol
    | some comma_index =>
      let cline := line.data.drop comma_index
      match ([dquote, squote].filter (fun q => cline.contains q)).map
          (fun q => cline.findIdx (fun c => c == q)) with
      | [] => .error .noQuoteSymbol
      | i0 :: is =>
        let quote_index := is.foldl Nat.min i0
        let lua_quote := cline.getD quote_index spaceChar
        match (splitP (fun c => c == lua_quote) line.data).reverse with
        | _ :: x :: _ => .ok (String.mk x)
        | _ => .error .idxError
  else
    match (pySplitWS line)[2]? with
    | some w => .ok w
    | none => .error .idxError

/-- `get_path_from_module(mod)` with the output of `module('show', mod)`
passed in as `text` (the read-only path of `module` returns the captured text
verbatim).  Five tiers, each scanning all lines and returning at the first
matching line; errors raised by `get_argument_from_module_line` propagate. -/
def get_path_from_module (mod : String) (text : String) : Except ExtractError (Option String) :=
  match (moduleLines text).find? (fun l => containsSub l "LD_LIBRARY_PATH") with
  | some line =>
    match get_argument_from_module_line line with
    | .ok path => .ok (some (String.mk (pySlice path.data 0 (pyFindS path "/lib"))))
    | .error e => .error e
  | none =>
    match (moduleLines text).find? (fun l => containsSub l (pyUpper mod ++ "_DIR")) with
    | some line =>
      match get_argument_from_module_line line with
      | .ok path => .ok (some path)
      | .error e => .error e
    | none =>
      match (moduleLines text).find? (fun l => containsSub l "-rpath/") with
      | some line =>
        .ok (some (String.mk
          (pySlice line.data ((pyFindS line "-rpath/").toNat + 6) (pyFindS line "/lib"))))
      | none =>
        match (moduleLines text).find? (fun l => containsSub l "-L/") with
        | some line =>
          .ok (some (String.mk
            (pySlice line.data ((pyFindS line "-L/").toNat + 2) (pyFindS line "/lib"))))
        | none =>
          match (moduleLines text).find? (fun l => containsSub l "PATH") with
          | some line =>
            match get_argument_from_module_line line with
            | .ok path => .ok (some (String.mk (pySlice path.data 0 (pyFindS path "/bin"))))
            | .error e => .error e
          | none => .ok none

/-- A concrete instance of the abstract JSON decoder, used only to instantiate
the universally quantified theorems about `module` at concrete inputs.  It
decodes the single flat JSON object used by those instantiations and rejects
everything else. -/
def jsonLoadsTest (s : String) : Option EnvMap :=
  if s = "\x7b\"FOO\": \"bar\"\x7d" then some [("FOO", "bar")] else none

example : lastLine "warn\n\x7b\x7d\n" = "\x7b\x7d" := by rfl

example : get_argument_from_module_line "setenv(\"LD_LIBRARY_PATH\",\"/opt/foo/2.0/lib64\")"
    = .ok "/opt/foo/2.0/lib64" := by rfl

example : get_path_from_module "foo" "setenv(\"LD_LIBRARY_PATH\",\"/opt/foo/2.0/lib64\")"
    = .ok (some "/opt/foo/2.0") := by rfl

example : get_path_from_module "foo" "setenv LD_LIBRARY_PATH /opt/foo/2.0/lib"
    = .ok (some "/opt/foo/2.0") := by rfl

example : get_path_from_module "foo" "setenv FOO_DIR /opt/foo/2.0"
    = .ok (some "/opt/foo/2.0") := by rfl

example : get_path_from_module "foo" "cc -rpath/opt/foo/3.1/lib -o out"
    = .ok (some "/opt/foo/3.1") := by rfl

example : get_path_from_module "foo" "cc /lib/crt.o -rpath/opt/foo/3.1/lib -o out"
    = .ok (some "") := by rfl

example : get_path_from_module "gcc" "nothing to see" = .ok none := by rfl

example : get_argument_from_module_line "load(foo,bar)" = .error .noQuoteSymbol := by rfl

/-- C1 counterexample: at a concrete mutating invocation whose captured output
is a decodable JSON object, `module` returns Python `None` — not the decoded
mapping — and leaves `os.environ` equal to the decoded mapping, which differs
from the caller's prior environment: the core operation itself rewrites the
ambient process environment instead of handing the snapshot back. -/
theorem module_mutating_counterexample :
    module jsonLoadsTest ["load", "x"] "\x7b\"FOO\": \"bar\"\x7d" 0 [("OLD", "1")]
      = (.ok .pyNone, [("FOO", "bar")]) ∧
    ([("FOO", "bar")] : EnvMap) ≠ [("OLD", "1")] :=
  ⟨by rfl, by decide⟩

/-- C1 (amended): for every mutating invocation (first token in
`module_change_commands`) whose captured output's last line decodes as a JSON
string-to-string mapping, `module` replaces the process environment wholesale
with that mapping (`os.environ.clear(); os.environ.update(...)`) and returns
Python `None` rather than the snapshot: the core operation itself modifies the
caller's ambient process environment. -/
theorem module_mutating_applies_snapshot (jsonLoads : String → Option EnvMap)
    (a0 : String) (rest : List String) (captured : String) (rc : Int) (environ : EnvMap)
    (d : EnvMap) (h : a0 ∈ module_change_commands)
    (hj : jsonLoads (lastLine captured) = some d) :
    module jsonLoads (a0 :: rest) captured rc environ = (.ok .pyNone, d) := by
  simp [module, h, hj]

/-- Witness for `module_mutating_applies_snapshot` at a concrete input. -/
theorem module_mutating_applies_snapshot_witness :
    module jsonLoadsTest ["swap", "a", "b"] "\x7b\"FOO\": \"bar\"\x7d" 2 [("OLD", "1")]
      = (.ok .pyNone, [("FOO", "bar")]) :=
  module_mutating_applies_snapshot jsonLoadsTest "swap" ["a", "b"]
    "\x7b\"FOO\": \"bar\"\x7d" 2 [("OLD", "1")] [("FOO", "bar")] (by decide) (by rfl)

/-- C2: for every invocation whose first token is not in
`module_change_commands`, `module` takes the read-only path: it returns the
full captured combined stdout+stderr text verbatim (no trimming), leaves the
environment untouched, and its result does not depend on the process exit
status. -/
theorem module_readonly_returns_captured_text (jsonLoads : String → Option EnvMap)
    (a0 : String) (rest : List String) (captured : String) (environ : EnvMap)
    (rc rc2 : Int) (h : a0 ∉ module_change_commands) :
    module jsonLoads (a0 :: rest) captured rc environ = (.ok (.output captured), environ) ∧
    module jsonLoads (a0 :: rest) captured rc environ
      = module jsonLoads (a0 :: rest) captured rc2 environ := by
  refine ⟨by simp [module, h], rfl⟩

/-- Witness for `module_readonly_returns_captured_text` at a concrete input:
a `show` invocation with a non-zero exit status still returns the captured
text, untrimmed. -/
theorem module_readonly_returns_captured_text_witness :
    module jsonLoadsTest ["show", "gcc"] "  some output \n" 3 [("A", "1")]
      = (.ok (.output "  some output \n"), [("A", "1")]) :=
  (module_readonly_returns_captured_text jsonLoadsTest "show" ["gcc"] "  some output \n"
    [("A", "1")] 3 0 (by decide)).1

/-- C3: for every mutating invocation, the snapshot is recovered from exactly
the last line of the whitespace-trimmed captured output
(`env_output.strip().split('\n')[-1]`, all earlier lines discarded): if that
line fails to decode as JSON the call fails with the malformed-snapshot error
instead of returning a snapshot, and if it decodes the decoded mapping becomes
the new environment. -/
theorem module_mutating_uses_last_line (jsonLoads : String → Option EnvMap)
    (a0 : String) (rest : List String) (captured : String) (rc : Int) (environ : EnvMap)
    (h : a0 ∈ module_change_commands) :
    (jsonLoads (String.mk ((splitP (fun c => c == nl) (pyStrip captured).data).getLastD []))
        = none →
      module jsonLoads (a0 :: rest) captured rc environ
        = (.error .malformedSnapshot, environ)) ∧
    ∀ d, jsonLoads (String.mk ((splitP (fun c => c == nl) (pyStrip captured).data).getLastD []))
        = some d →
      module jsonLoads (a0 :: rest) captured rc environ = (.ok .pyNone, d) := by
  constructor
  · intro hj
    have hj2 : jsonLoads (lastLine captured) = none := hj
    simp [module, h, hj2]
  · intro d hj
    have hj2 : jsonLoads (lastLine captured) = some d := hj
    simp [module, h, hj2]

/-- Witness for `module_mutating_uses_last_line`: a warning banner followed by
a garbage line raises, a banner followed by a JSON line succeeds with the
banner discarded. -/
theorem module_mutating_uses_last_line_witness :
    module jsonLoadsTest ["load", "x"] "warning banner\nnot json" 0 [("A", "1")]
        = (.error .malformedSnapshot, [("A", "1")]) ∧
    module jsonLoadsTest ["load", "x"] "warning banner\n\x7b\"FOO\": \"bar\"\x7d\n" 0 [("A", "1")]
        = (.ok .pyNone, [("FOO", "bar")]) :=
  ⟨(module_mutating_uses_last_line jsonLoadsTest "load" ["x"] "warning banner\nnot json" 0
      [("A", "1")] (by decide)).1 (by rfl),
   (module_mutating_uses_last_line jsonLoadsTest "load" ["x"]
      "warning banner\n\x7b\"FOO\": \"bar\"\x7d\n" 0 [("A", "1")] (by decide)).2
      [("FOO", "bar")] (by rfl)⟩

/-- C9: atomicity of the mutating path on snapshot failure: when the last line
of the captured output does not decode as JSON, `module` raises the
malformed-snapshot error and the environment returned is exactly the
environment passed in — the JSON decode happens strictly before the
clear-and-update of the environment, so nothing has been modified. -/
theorem module_mutating_atomic_on_failure (jsonLoads : String → Option EnvMap)
    (a0 : String) (rest : List String) (captured : String) (rc : Int) (environ : EnvMap)
    (h : a0 ∈ module_change_commands)
    (hj : jsonLoads (lastLine captured) = none) :
    module jsonLoads (a0 :: rest) captured rc environ
      = (.error .malformedSnapshot, environ) := by
  simp [module, h, hj]

/-- Witness for `module_mutating_atomic_on_failure` at a concrete input. -/
theorem module_mutating_atomic_on_failure_witness :
    module jsonLoadsTest ["purge"] "Cray warning\ngarbage" 1 [("KEEP", "me")]
      = (.error .malformedSnapshot, [("KEEP", "me")]) :=
  module_mutating_atomic_on_failure jsonLoadsTest "purge" [] "Cray warning\ngarbage" 1
    [("KEEP", "me")] (by decide) (by rfl)

/-- `splitP` always yields at least one segment, like Python's `str.split`. -/
theorem splitP_ne_nil (p : Char → Bool) (l : List Char) : splitP p l ≠ [] := by
  cases l with
  | nil => simp [splitP]
  | cons c t =>
    simp only [splitP]
    cases hpc : p c with
    | true => simp
    | false =>
      simp only [Bool.false_eq_true, if_false]
      cases hs : splitP p t with
      | nil => simp
      | cons a r => simp

/-- If some character of `l` satisfies `p`, splitting `l` on `p` yields at
least two segments, so Python's `[-2]` index is in range. -/
theorem two_le_splitP_length (p : Char → Bool) (l : List Char) (c : Char)
    (hc : c ∈ l) (hp : p c = true) : 2 ≤ (splitP p l).length := by
  induction l with
  | nil => cases hc
  | cons a t ih =>
    simp only [splitP]
    cases hpa : p a with
    | true =>
      have h1 : splitP p t ≠ [] := splitP_ne_nil p t
      have h2 : 1 ≤ (splitP p t).length := by
        cases hs : splitP p t with
        | nil => exact absurd hs h1
        | cons x r => simp
      simpa using Nat.succ_le_succ h2
    | false =>
      have hct : c ∈ t := by
        rcases List.mem_cons.mp hc with h | h
        · subst h; rw [hp] at hpa; cases hpa
        · exact h
      have ih2 := ih hct
      cases hs : splitP p t with
      | nil => exact absurd hs (splitP_ne_nil p t)
      | cons x r =>
        rw [hs] at ih2
        simp only [Bool.false_eq_true, if_false, hs, List.length_cons]
        simp only [List.length_cons] at ih2
        omega

/-- The character `getD` reads back at the index `findIdx` computes for the
predicate "equals `q`" is `q` itself, whenever `q` occurs in the list. -/
theorem getD_findIdx_eq (l : List Char) (q d : Char) (h : q ∈ l) :
    l.getD (l.findIdx (fun c => c == q)) d = q := by
  induction l with
  | nil => cases h
  | cons a t ih =>
    rw [List.findIdx_cons]
    cases hq : a == q with
    | true =>
      have ha : a = q := eq_of_beq hq
      simp [hq, ha]
    | false =>
      have hqt : q ∈ t := by
        rcases List.mem_cons.mp h with h1 | h1
        · subst h1; simp at hq
        · exact h1
      simpa [hq] using ih hqt

/-- `List.contains` agrees with membership (truth direction). -/
theorem contains_eq_true_of_mem {c : Char} {l : List Char} (h : c ∈ l) :
    l.contains c = true :=
  List.elem_eq_true_of_mem h

/-- `List.contains` agrees with membership (falsity direction). -/
theorem not_mem_of_contains_eq_false {c : Char} {l : List Char} (h : l.contains c = false) :
    c ∉ l :=
  fun hm => Bool.noConfusion ((contains_eq_true_of_mem hm).symm.trans h)

/-- The quote character the Lua branch selects: among the quote characters
present in `cl`, reading `cl` back at the minimum of the `find` results of
those present yields the quote character whose first occurrence comes
earliest. -/
theorem quote_select (cl : List Char) (q : Char)
    (hq : q = dquote ∨ q = squote) (hmem : q ∈ cl)
    (hfirst : ∀ q2, (q2 = dquote ∨ q2 = squote) → q2 ∈ cl →
      cl.findIdx (fun c => c == q) ≤ cl.findIdx (fun c => c == q2)) :
    ∃ i0 is, ([dquote, squote].filter (fun x => cl.contains x)).map
        (fun x => cl.findIdx (fun c => c == x)) = i0 :: is ∧
      cl.getD (is.foldl Nat.min i0) spaceChar = q := by
  by_cases hd : dquote ∈ cl <;> by_cases hs : squote ∈ cl
  · refine ⟨cl.findIdx (fun c => c == dquote), [cl.findIdx (fun c => c == squote)], ?_, ?_⟩
    · simp [List.filter, hd, hs]
    · rcases hq with h | h
      · subst h
        have hle := hfirst squote (Or.inr rfl) hs
        have hmin : Nat.min (cl.findIdx (fun c => c == dquote))
            (cl.findIdx (fun c => c == squote)) = cl.findIdx (fun c => c == dquote) := by
          rw [Nat.min_eq_min, Nat.min_def, if_pos hle]
        simpa [List.foldl, hmin] using getD_findIdx_eq cl dquote spaceChar hd
      · subst h
        have hle := hfirst dquote (Or.inl rfl) hd
        have hmin : Nat.min (cl.findIdx (fun c => c == dquote))
            (cl.findIdx (fun c => c == squote)) = cl.findIdx (fun c => c == squote) := by
          rw [Nat.min_eq_min, Nat.min_def]
          by_cases h2 : cl.findIdx (fun c => c == dquote) ≤ cl.findIdx (fun c => c == squote)
          · rw [if_pos h2]; exact Nat.le_antisymm h2 hle
          · rw [if_neg h2]
        simpa [List.foldl, hmin] using getD_findIdx_eq cl squote spaceChar hs
  · have hqd : q = dquote := by
      rcases hq with h | h
      · exact h
      · subst h; exact absurd hmem hs
    subst hqd
    exact ⟨cl.findIdx (fun c => c == dquote), [], by simp [List.filter, hd, hs],
      by simpa [List.foldl] using getD_findIdx_eq cl dquote spaceChar hd⟩
  · have hqs : q = squote := by
      rcases hq with h | h
      · subst h; exact absurd hmem hd
      · exact h
    subst hqs
    exact ⟨cl.findIdx (fun c => c == squote), [], by simp [List.filter, hd, hs],
      by simpa [List.foldl] using getD_findIdx_eq cl squote spaceChar hs⟩
  · rcases hq with h | h
    · subst h; exact absurd hmem hd
    · subst h; exact absurd hmem hs

/-- C5: for every line not containing both parentheses (TCL dialect, modulo
the line having at least three whitespace-separated words, without which the
source raises `IndexError`), extraction returns the third word (index 2 of a
0-based split); and for the description text
`setenv LD_LIBRARY_PATH /opt/foo/2.0/lib` tier-1 extraction through
`get_path_from_module` returns `/opt/foo/2.0`. -/
theorem tcl_third_word_extraction :
    (∀ line w, (line.data.contains opar && line.data.contains cpar) = false →
      (pySplitWS line)[2]? = some w →
      get_argument_from_module_line line = .ok w) ∧
    get_path_from_module "foo" "setenv LD_LIBRARY_PATH /opt/foo/2.0/lib"
      = .ok (some "/opt/foo/2.0") := by
  constructor
  · intro line w hp hw
    have hp2 : ¬(line.data.contains opar && line.data.contains cpar) = true := by
      rw [hp]; exact Bool.false_ne_true
    simp only [get_argument_from_module_line]
    rw [if_neg hp2]
    simp [hw]
  · rfl

/-- Witness for `tcl_third_word_extraction` at a concrete TCL line. -/
theorem tcl_third_word_extraction_witness :
    get_argument_from_module_line "setenv LD_LIBRARY_PATH /opt/foo/2.0/lib"
      = .ok "/opt/foo/2.0/lib" :=
  tcl_third_word_extraction.1 "setenv LD_LIBRARY_PATH /opt/foo/2.0/lib" "/opt/foo/2.0/lib"
    (by decide) (by rfl)

/-- C6: for every Lua-shaped line (containing both parentheses, with a comma)
in which neither quote character occurs in the substring from the first comma
onward, extraction fails with the no-quote-symbol error (the re-raised
`ValueError`), rather than returning a value or falling through; and
concretely so for the line `load(foo,bar)`. -/
theorem lua_no_quote_error :
    (∀ line i, (line.data.contains opar && line.data.contains cpar) = true →
      line.data.findIdx? (fun c => c == comma) = some i →
      (line.data.drop i).contains dquote = false →
      (line.data.drop i).contains squote = false →
      get_argument_from_module_line line = .error .noQuoteSymbol) ∧
    get_argument_from_module_line "load(foo,bar)" = .error .noQuoteSymbol := by
  constructor
  · intro line i hp hc hd hs
    have hp1 : opar ∈ line.data := List.mem_of_elem_eq_true (Bool.and_eq_true_iff.mp hp).1
    have hp2 : cpar ∈ line.data := List.mem_of_elem_eq_true (Bool.and_eq_true_iff.mp hp).2
    have hd2 := not_mem_of_contains_eq_false hd
    have hs2 := not_mem_of_contains_eq_false hs
    simp [get_argument_from_module_line, hp1, hp2, hc, hd2, hs2]
  · rfl

/-- Witness for `lua_no_quote_error` at a concrete quoteless Lua line. -/
theorem lua_no_quote_error_witness :
    get_argument_from_module_line "setenv(FOO,123)" = .error .noQuoteSymbol :=
  lua_no_quote_error.1 "setenv(FOO,123)" 10 (by decide) (by decide) (by decide) (by decide)

/-- C4: for every line containing both parentheses (Lua dialect) whose first
comma is at index `i`, if `q` is a quote character (double or single) that
occurs in the substring from that comma onward and whose first occurrence
there is no later than that of the other quote character, then extraction
splits the whole line on `q` and returns the second-to-last segment; and for
description text `setenv("LD_LIBRARY_PATH","/opt/foo/2.0/lib64")` tier-1
extraction through `get_path_from_module` returns `/opt/foo/2.0`. -/
theorem lua_quote_extraction :
    (∀ line i q, (line.data.contains opar && line.data.contains cpar) = true →
      line.data.findIdx? (fun c => c == comma) = some i →
      (q = dquote ∨ q = squote) →
      q ∈ line.data.drop i →
      (∀ q2, (q2 = dquote ∨ q2 = squote) → q2 ∈ line.data.drop i →
        (line.data.drop i).findIdx (fun c => c == q)
          ≤ (line.data.drop i).findIdx (fun c => c == q2)) →
      get_argument_from_module_line line
        = .ok (String.mk ((splitP (fun c => c == q) line.data).reverse.getD 1 []))) ∧
    get_path_from_module "foo" "setenv(\"LD_LIBRARY_PATH\",\"/opt/foo/2.0/lib64\")"
      = .ok (some "/opt/foo/2.0") := by
  constructor
  · intro line i q hp hc hq hmem hfirst
    obtain ⟨i0, is, hl, hsel⟩ := quote_select (line.data.drop i) q hq hmem hfirst
    simp only [get_argument_from_module_line]
    rw [if_pos hp]
    simp only [hc]
    simp only [hl]
    rw [hsel]
    have hmem2 : q ∈ line.data := List.drop_subset i line.data hmem
    have len2 : 2 ≤ (splitP (fun c => c == q) line.data).length :=
      two_le_splitP_length _ _ q hmem2 (by simp)
    cases hr : (splitP (fun c => c == q) line.data).reverse with
    | nil =>
      have h0 : (splitP (fun c => c == q) line.data).length = 0 := by
        simpa using congrArg List.length hr
      omega
    | cons a r =>
      cases r with
      | nil =>
        have h1 : (splitP (fun c => c == q) line.data).length = 1 := by
          simpa using congrArg List.length hr
        omega
      | cons b r2 =>
        rfl
  · rfl

/-- Witness for `lua_quote_extraction` at the claim's own Lua line, with the
double quote as the first-appearing quote character. -/
theorem lua_quote_extraction_witness :
    get_argument_from_module_line "setenv(\"LD_LIBRARY_PATH\",\"/opt/foo/2.0/lib64\")"
      = .ok "/opt/foo/2.0/lib64" := by
  have h := lua_quote_extraction.1 "setenv(\"LD_LIBRARY_PATH\",\"/opt/foo/2.0/lib64\")" 24
    dquote (by decide) (by decide) (Or.inl rfl) (by decide) ?hf
  case hf =>
    intro q2 h2 hm2
    rcases h2 with h | h
    · subst h; exact Nat.le_refl _
    · subst h; exact absurd hm2 (by decide)
  rw [h]
  rfl

/-- `pyFind` returns either `-1` (substring absent) or a non-negative index. -/
theorem pyFind_eq_neg_one_or_nonneg (l sub : List Char) :
    pyFind l sub = -1 ∨ 0 ≤ pyFind l sub := by
  unfold pyFind
  cases findSubFrom sub l 0 with
  | none => exact Or.inl rfl
  | some i => exact Or.inr (Int.natCast_nonneg i)

/-- C7: the five heuristics run in strict priority order over the lines of
the text, first matching line of the first matching tier wins: (1) any line
containing `LD_LIBRARY_PATH` decides the result regardless of all later
tiers; (2) with no tier-1 line, the first `<MOD-uppercased>_DIR` line decides
it and its extracted argument is returned unmodified; (3) if no line matches
any of the five patterns the result is `none` (absence, not an error);
concretely, text with both an `LD_LIBRARY_PATH` line and a `FOO_DIR` line
with different paths yields the `LD_LIBRARY_PATH`-derived path `/a/x`, and
the spec's tier-2 example returns `/opt/foo/2.0` untruncated. -/
theorem path_heuristic_priority :
    (∀ mod text line,
      (moduleLines text).find? (fun l => containsSub l "LD_LIBRARY_PATH") = some line →
      get_path_from_module mod text
        = match get_argument_from_module_line line with
          | .ok path => .ok (some (String.mk (pySlice path.data 0 (pyFindS path "/lib"))))
          | .error e => .error e) ∧
    (∀ mod text line,
      (moduleLines text).find? (fun l => containsSub l "LD_LIBRARY_PATH") = none →
      (moduleLines text).find? (fun l => containsSub l (pyUpper mod ++ "_DIR")) = some line →
      get_path_from_module mod text
        = match get_argument_from_module_line line with
          | .ok path => .ok (some path)
          | .error e => .error e) ∧
    (∀ mod text,
      (∀ l ∈ moduleLines text, containsSub l "LD_LIBRARY_PATH" = false ∧
        containsSub l (pyUpper mod ++ "_DIR") = false ∧ containsSub l "-rpath/" = false ∧
        containsSub l "-L/" = false ∧ containsSub l "PATH" = false) →
      get_path_from_module mod text = .ok none) ∧
    get_path_from_module "foo" "setenv LD_LIBRARY_PATH /a/x/lib\nsetenv FOO_DIR /b/y"
      = .ok (some "/a/x") ∧
    ("/a/x" : String) ≠ "/b/y" ∧
    get_path_from_module "foo" "setenv FOO_DIR /opt/foo/2.0" = .ok (some "/opt/foo/2.0") := by
  refine ⟨?_, ?_, ?_, by rfl, by decide, by rfl⟩
  · intro mod text line h1
    simp only [get_path_from_module, h1]
  · intro mod text line h1 h2
    simp only [get_path_from_module, h1, h2]
  · intro mod text hall
    have h1 : (moduleLines text).find? (fun l => containsSub l "LD_LIBRARY_PATH") = none :=
      List.find?_eq_none.mpr (fun x hx => by simp [(hall x hx).1])
    have h2 : (moduleLines text).find? (fun l => containsSub l (pyUpper mod ++ "_DIR")) = none :=
      List.find?_eq_none.mpr (fun x hx => by simp [(hall x hx).2.1])
    have h3 : (moduleLines text).find? (fun l => containsSub l "-rpath/") = none :=
      List.find?_eq_none.mpr (fun x hx => by simp [(hall x hx).2.2.1])
    have h4 : (moduleLines text).find? (fun l => containsSub l "-L/") = none :=
      List.find?_eq_none.mpr (fun x hx => by simp [(hall x hx).2.2.2.1])
    have h5 : (moduleLines text).find? (fun l => containsSub l "PATH") = none :=
      List.find?_eq_none.mpr (fun x hx => by simp [(hall x hx).2.2.2.2])
    simp only [get_path_from_module, h1, h2, h3, h4, h5]

/-- Witness for `path_heuristic_priority`: tier 1 deciding alone, tier 2
returning the argument unmodified, and the no-match case returning `none`,
each at a concrete input. -/
theorem path_heuristic_priority_witness :
    get_path_from_module "bar" "setenv LD_LIBRARY_PATH /a/x/lib" = .ok (some "/a/x") ∧
    get_path_from_module "foo" "prepend FOO_DIR /b/y" = .ok (some "/b/y") ∧
    get_path_from_module "gcc" "nothing to see" = .ok none := by
  refine ⟨?_, ?_, ?_⟩
  · have h := path_heuristic_priority.1 "bar" "setenv LD_LIBRARY_PATH /a/x/lib"
      "setenv LD_LIBRARY_PATH /a/x/lib" (by rfl)
    rw [h]
    rfl
  · have h := path_heuristic_priority.2.1 "foo" "prepend FOO_DIR /b/y"
      "prepend FOO_DIR /b/y" (by rfl) (by rfl)
    rw [h]
    rfl
  · exact path_heuristic_priority.2.2.1 "gcc" "nothing to see" (by decide)

/-- C8 counterexample: for the text `cc /lib/crt.o -rpath/opt/foo/3.1/lib -o
out`, whose single line contains `-rpath/` at index 14 but also an earlier
`/lib` at index 3, tier 3 returns the empty string — Python's
`line[20:line.find('/lib')] = line[20:3]` — not the `/opt/foo/3.1` the claim's
"first occurrence of '/lib' subsequent to that position" rule would give:
the `/lib` search starts at the beginning of the line, not at the match. -/
theorem rpath_truncation_counterexample :
    get_path_from_module "foo" "cc /lib/crt.o -rpath/opt/foo/3.1/lib -o out" = .ok (some "") ∧
    (some "" : Option String) ≠ some "/opt/foo/3.1" :=
  ⟨by rfl, by decide⟩

/-- C8 (amended): for the first line containing `-rpath/` (tiers 1 and 2
having no match), tier 3 returns the text starting 6 characters after the
match position truncated at the first occurrence of `/lib` in the whole line
— the search starts at the line's beginning, not at the match position, so an
earlier `/lib` truncates before the start (empty result); when no `/lib`
precedes the match this is truncation at the first subsequent `/lib`, and in
particular for text containing only `cc -rpath/opt/foo/3.1/lib -o out`
extraction returns `/opt/foo/3.1`. -/
theorem rpath_extraction :
    (∀ mod text line,
      (moduleLines text).find? (fun l => containsSub l "LD_LIBRARY_PATH") = none →
      (moduleLines text).find? (fun l => containsSub l (pyUpper mod ++ "_DIR")) = none →
      (moduleLines text).find? (fun l => containsSub l "-rpath/") = some line →
      get_path_from_module mod text
        = .ok (some (String.mk (pySlice line.data ((pyFindS line "-rpath/").toNat + 6)
            (pyFindS line "/lib"))))) ∧
    get_path_from_module "foo" "cc -rpath/opt/foo/3.1/lib -o out" = .ok (some "/opt/foo/3.1") := by
  constructor
  · intro mod text line h1 h2 h3
    simp only [get_path_from_module, h1, h2, h3]
  · rfl

/-- Witness for `rpath_extraction` at the claim's own example line. -/
theorem rpath_extraction_witness :
    get_path_from_module "bar" "cc -rpath/opt/foo/3.1/lib -o out" = .ok (some "/opt/foo/3.1") := by
  have h := rpath_extraction.1 "bar" "cc -rpath/opt/foo/3.1/lib -o out"
    "cc -rpath/opt/foo/3.1/lib -o out" (by rfl) (by rfl) (by rfl)
  rw [h]
  rfl

/-- C10: when the truncation marker is absent, the returned path is the
extracted argument with exactly its final character removed: in tier 1, if
the first `LD_LIBRARY_PATH` line's argument does not contain `/lib`, the
result drops only the last character (Python `path.find` yields `-1` and
`path[:-1]` drops one character); likewise in tier 5 for an argument without
`/bin`. -/
theorem missing_marker_drops_last_char :
    (∀ mod text line path,
      (moduleLines text).find? (fun l => containsSub l "LD_LIBRARY_PATH") = some line →
      get_argument_from_module_line line = .ok path →
      containsSub path "/lib" = false →
      get_path_from_module mod text = .ok (some (String.mk path.data.dropLast))) ∧
    (∀ mod text line path,
      (moduleLines text).find? (fun l => containsSub l "LD_LIBRARY_PATH") = none →
      (moduleLines text).find? (fun l => containsSub l (pyUpper mod ++ "_DIR")) = none →
      (moduleLines text).find? (fun l => containsSub l "-rpath/") = none →
      (moduleLines text).find? (fun l => containsSub l "-L/") = none →
      (moduleLines text).find? (fun l => containsSub l "PATH") = some line →
      get_argument_from_module_line line = .ok path →
      containsSub path "/bin" = false →
      get_path_from_module mod text = .ok (some (String.mk path.data.dropLast))) := by
  constructor
  · intro mod text line path h1 hga hcon
    have hneg : pyFindS path "/lib" = -1 := by
      rcases pyFind_eq_neg_one_or_nonneg path.data ("/lib" : String).data with h | h
      · exact h
      · have hT : containsSub path "/lib" = true := decide_eq_true h
        rw [hT] at hcon
        exact Bool.noConfusion hcon
    have hsl : pySlice path.data 0 (-1) = path.data.dropLast := by
      simp [pySlice, List.dropLast_eq_take]
    simp only [get_path_from_module, h1, hga, hneg, hsl]
  · intro mod text line path h1 h2 h3 h4 h5 hga hcon
    have hneg : pyFindS path "/bin" = -1 := by
      rcases pyFind_eq_neg_one_or_nonneg path.data ("/bin" : String).data with h | h
      · exact h
      · have hT : containsSub path "/bin" = true := decide_eq_true h
        rw [hT] at hcon
        exact Bool.noConfusion hcon
    have hsl : pySlice path.data 0 (-1) = path.data.dropLast := by
      simp [pySlice, List.dropLast_eq_take]
    simp only [get_path_from_module, h1, h2, h3, h4, h5, hga, hneg, hsl]

/-- Witness for `missing_marker_drops_last_char`: a tier-1 argument without
`/lib` loses only its final character, and a tier-5 argument without `/bin`
likewise. -/
theorem missing_marker_drops_last_char_witness :
    get_path_from_module "zzz" "setenv LD_LIBRARY_PATH /opt/bar" = .ok (some "/opt/ba") ∧
    get_path_from_module "zzz" "setenv MANPATH /usr/share/man" = .ok (some "/usr/share/ma") := by
  constructor
  · have h := missing_marker_drops_last_char.1 "zzz" "setenv LD_LIBRARY_PATH /opt/bar"
      "setenv LD_LIBRARY_PATH /opt/bar" "/opt/bar" (by rfl) (by rfl) (by rfl)
    rw [h]
    rfl
  · have h := missing_marker_drops_last_char.2 "zzz" "setenv MANPATH /usr/share/man"
      "setenv MANPATH /usr/share/man" "/usr/share/man" (by rfl) (by rfl) (by rfl) (by rfl)
      (by rfl) (by rfl) (by rfl)
    rw [h]
    rfl
